import Mathlib

/-!
Verification development for the KUtrace kernel tracing module
(`kutrace_mod.c`, riscv build).  The trace-buffer engine is shallowly
embedded: all pointers into the trace arena are modelled as natural
numbers counting 64-bit words (the C code performs all of its pointer
arithmetic on `u64 *`, in multiples of 8 bytes, so word granularity is a
faithful unit; the per-CPU cursor `tb->next`, a byte-valued atomic in C,
is likewise kept in words).  `NULL` is modelled as address `0`; theorems
that need a non-null arena carry the hypothesis `1 ≤ tracebase`.
Machine integers are `Nat` with explicit reductions modulo `2 ^ 64` or
`2 ^ 32` exactly where the C code truncates.  Memory is a total function
from word addresses to word values; the `memset`/flush loops are embedded
as range updates and byte stores into the IPC side-channel as sub-word
updates.  Execution is single-CPU and sequential; the lock-free fast
path's interrupt window is modelled by an explicit interference parameter
(`intr`) standing for the per-CPU cursor state observed at the re-read of
`tb->limit`.  External collaborators (time counter, instructions-retired
counter, current task identity, user-space copies) enter through an
environment record `TraceEnv`.
-/

/-- Trace block size in u64 words, `KUTRACEBLOCKSIZEU64 = 1 << 13`. -/
def KUTRACEBLOCKSIZEU64 : Nat := 8192

/-- Shift giving the trace block size in u64 words. -/
def KUTRACEBLOCKSHIFTU64 : Nat := 13

/-- Shift giving the IPC block size in bytes, `KUIPCBLOCKSHIFTU8`. -/
def KUIPCBLOCKSHIFTU8 : Nat := 10

/-- Mask for the retval field of a trace word. -/
def RETVAL_MASK : Nat := 0x0000000000ff0000

/-- Mask for the delta field of a trace word. -/
def DELTA_MASK : Nat := 0x00000000ff000000

/-- Mask for the event field of a trace word. -/
def EVENT_MASK : Nat := 0x00000fff00000000

/-- Combined event, delta and retval field mask. -/
def EVENT_DELTA_RETVAL_MASK : Nat := EVENT_MASK ||| DELTA_MASK ||| RETVAL_MASK

/-- The bit of the (shifted) event code distinguishing a return from a call. -/
def EVENT_RETURN_BIT : Nat := 0x0000020000000000

/-- Mask of the four length bits inside an event code. -/
def EVENT_LENGTH_FIELD_MASK : Nat := 0xf

/-- Unshifted 8-bit retval mask. -/
def UNSHIFTED_RETVAL_MASK : Nat := 0xff

/-- Unshifted 12-bit event mask. -/
def UNSHIFTED_EVENT_MASK : Nat := 0xfff

/-- Unshifted 20-bit timestamp mask. -/
def UNSHIFTED_TIMESTAMP_MASK : Nat := 0xfffff

/-- Unshifted event return bit. -/
def UNSHIFTED_EVENT_RETURN_BIT : Nat := 0x200

/-- Unshifted mask of the two bits marking event codes that carry returns. -/
def UNSHIFTED_EVENT_HAS_RETURN_MASK : Nat := 0xc00

/-- Smallest event code carrying an embedded length. -/
def MIN_EVENT_WITH_LENGTH : Nat := 0x010

/-- Largest event code carrying an embedded length. -/
def MAX_EVENT_WITH_LENGTH : Nat := 0x1ff

/-- Largest delta storable in the 8-bit delta field. -/
def MAX_DELTA_VALUE : Nat := 255

/-- Shift of the retval field. -/
def RETVAL_SHIFT : Nat := 16

/-- Shift of the delta field. -/
def DELTA_SHIFT : Nat := 24

/-- Shift of the event field. -/
def EVENT_SHIFT : Nat := 32

/-- Shift of the timestamp field. -/
def TIMESTAMP_SHIFT : Nat := 44

/-- Shift of the length nibble inside an event code. -/
def EVENT_LENGTH_FIELD_SHIFT : Nat := 4

/-- Mask of the 56-bit full timestamp in a block header word. -/
def FULL_TIMESTAMP_MASK : Nat := 0x00ffffffffffffff

/-- Shift of the CPU number in a block header word. -/
def CPU_NUMBER_SHIFT : Nat := 56

/-- Shift of the flags byte in the second block header word. -/
def FLAGS_SHIFT : Nat := 56

/-- IPC flag bit for the block header flags byte. -/
def IPC_Flag : Nat := 0x80

/-- Wraparound flag bit for the block header flags byte. -/
def WRAP_Flag : Nat := 0x40

/-- Reset-flags bit requesting IPC tracing. -/
def DO_IPC : Nat := 1

/-- Reset-flags bit requesting wraparound. -/
def DO_WRAP : Nat := 2

/-- Version number of the kernel tracing module. -/
def kModuleVersionNumber : Nat := 3

/-- Counter wrap increment; zero on the riscv build (64-bit counter). -/
def kCounterWrapIncrease : Nat := 0

/-- Counter wrap mask; zero on the riscv build (64-bit counter). -/
def kCounterWrapMask : Nat := 0

/-- Reduce a value modulo `2 ^ 64`, the u64 truncation of the C code. -/
def mod64 (x : Nat) : Nat := x % 2 ^ 64

/-- u64 subtraction `a - b` with wraparound, as the C code computes it. -/
def sub64 (a b : Nat) : Nat := (mod64 a + 2 ^ 64 - mod64 b) % 2 ^ 64

/-- u64 bitwise complement `~x`: exclusive-or with all ones. -/
def bitnot64 (x : Nat) : Nat := (2 ^ 64 - 1) ^^^ x

/-- Store one u64 word at word address `a`. -/
def wr (m : Nat → Nat) (a v : Nat) : Nat → Nat :=
  fun x => if x = a then v else m x

/-- Zero-fill the word range `[lo, hi)`, the embedding of a store loop. -/
def wrRange (m : Nat → Nat) (lo hi : Nat) : Nat → Nat :=
  fun x => if lo ≤ x ∧ x < hi then 0 else m x

/-- Store consecutive u64 words starting at `a`, the embedding of memcpy. -/
def writeList (m : Nat → Nat) (a : Nat) : List Nat → (Nat → Nat)
  | [] => m
  | v :: vs => writeList (wr m a (mod64 v)) (a + 1) vs

/-- Read the byte at byte offset `off` from the word address `base`. -/
def rdByte (m : Nat → Nat) (base off : Nat) : Nat :=
  (m (base + off / 8) >>> (8 * (off % 8))) &&& 0xff

/-- Store one byte at byte offset `off` from the word address `base`,
    leaving the other seven bytes of the containing word unchanged. -/
def wrByte (m : Nat → Nat) (base off v : Nat) : Nat → Nat :=
  let w := base + off / 8
  let lane := off % 8
  let old := m w
  wr m w ((old &&& bitnot64 (0xff <<< (8 * lane))) ||| ((v &&& 0xff) <<< (8 * lane)))

/-- Per-CPU trace cursor, `struct kutrace_traceblock`: the atomic cursor
    `next` and block end `limit` (word addresses, 0 = NULL), and the
    prior performance-counter readings for IPC deltas. -/
structure kutrace_traceblock where
  next : Nat
  limit : Nat
  prior_cycles : Nat
  prior_inst_retired : Nat
  deriving DecidableEq, Repr

/-- Global state of the tracing module: the tracing and mode flags, the
    arena pointers (word addresses), the wraparound marker, the block
    timestamp tracker, the pid filter (1024 u64 words) and trace memory. -/
structure KState where
  kutrace_tracing : Bool
  do_ipc : Bool
  do_wrap : Bool
  tracebase : Nat
  tracemb : Nat
  traceblock_high : Nat
  traceblock_limit : Nat
  traceblock_next : Nat
  did_wrap_around : Bool
  prior_block_init_counter : Nat
  kutrace_pid_filter : List Nat
  mem : Nat → Nat

/-- Environment supplied by external collaborators for one operation:
    the time counter reading, current CPU id, current task pid and
    16-byte name (two words), the instructions-retired reading, and the
    result of a user-space copy (`none` = fault). -/
structure TraceEnv where
  now : Nat
  cpu : Nat
  pid : Nat
  name0 : Nat
  name1 : Nat
  inst_ret : Nat
  ucopy : Option (List Nat)

/-- Length check `is_bad_len`: true when `len` is outside `1..8`. -/
def is_bad_len (len : Nat) : Bool :=
  decide (len < 1) || decide (len > 8)

/-- Turn tracing off, `do_trace_off`; returns the tracing bit. -/
def do_trace_off (s : KState) : Nat × KState :=
  (0, { s with kutrace_tracing := false })

/-- Turn tracing on, `do_trace_on`; returns the tracing bit. -/
def do_trace_on (s : KState) : Nat × KState :=
  (1, { s with kutrace_tracing := true })

/-- Flush a single CPU cursor: zero `[next, limit)` and advance `next`
    to `limit`, skipping null cursors; yields memory, cursor and the
    number of words zeroed. -/
def flush_one (m : Nat → Nat) (tb : kutrace_traceblock) :
    (Nat → Nat) × kutrace_traceblock × Nat :=
  if tb.next = 0 then (m, tb, 0)
  else if tb.limit = 0 then (m, tb, 0)
  else (wrRange m tb.next tb.limit, { tb with next := tb.limit }, tb.limit - tb.next)

/-- Flush every CPU cursor in order, threading memory and summing the
    zeroed word counts. -/
def flush_cpus (m : Nat → Nat) : List kutrace_traceblock →
    (Nat → Nat) × List kutrace_traceblock × Nat
  | [] => (m, [], 0)
  | tb :: rest =>
    let r1 := flush_one m tb
    let r2 := flush_cpus r1.1 rest
    (r2.1, r1.2.1 :: r2.2.1, r1.2.2 + r2.2.2)

/-- Flush all partially filled trace blocks, `do_flush`: tracing is
    forced off and every CPU's unused tail is zero-filled.  Returns the
    number of words zeroed. -/
def do_flush (s : KState) (cpus : List kutrace_traceblock) :
    Nat × KState × List kutrace_traceblock :=
  let r := flush_cpus s.mem cpus
  (r.2.2, { s with kutrace_tracing := false, mem := r.1 }, r.2.1)

/-- Number of filled trace blocks, `do_stat`. -/
def do_stat_val (s : KState) : Nat :=
  if s.did_wrap_around ∨ s.traceblock_next < s.traceblock_limit then
    (s.traceblock_high - s.traceblock_limit) >>> KUTRACEBLOCKSHIFTU64
  else
    (s.traceblock_high - s.traceblock_next) >>> KUTRACEBLOCKSHIFTU64

/-- Number of filled trace words, the value computed by `get_count`. -/
def get_count_val (s : KState) : Nat :=
  if s.did_wrap_around ∨ s.traceblock_next < s.traceblock_limit then
    s.traceblock_high - s.traceblock_limit
  else
    s.traceblock_high - s.traceblock_next

/-- `get_count`: forces tracing off and returns the filled word count. -/
def get_count (s : KState) : Nat × KState :=
  (get_count_val s, { s with kutrace_tracing := false })

/-- Read one u64 word of trace data by linear index, working down from
    the top of the arena, `get_word`. -/
def get_word (s : KState) (subscr : Nat) : Nat × KState :=
  let s1 := { s with kutrace_tracing := false }
  if subscr ≥ get_count_val s then (0, s1)
  else
    let blocknum := subscr >>> KUTRACEBLOCKSHIFTU64
    let u64_within_block := subscr &&& (KUTRACEBLOCKSIZEU64 - 1)
    let blockp := s.traceblock_high - ((blocknum + 1) <<< KUTRACEBLOCKSHIFTU64)
    (s.mem (blockp + u64_within_block), s1)

/-- Read one u64 word of IPC data by linear index, `get_ipc_word`; IPC
    blocks grow down from `traceblock_limit`. -/
def get_ipc_word (s : KState) (subscr : Nat) : Nat × KState :=
  let s1 := { s with kutrace_tracing := false }
  if subscr ≥ get_count_val s >>> 3 then (0, s1)
  else
    let blocknum := subscr >>> KUIPCBLOCKSHIFTU8
    let u64_within_block := subscr &&& ((1 <<< KUIPCBLOCKSHIFTU8) - 1)
    let blockp := s.traceblock_limit - ((blocknum + 1) <<< KUIPCBLOCKSHIFTU8)
    (s.mem (blockp + u64_within_block), s1)

/-- The fixed 64-entry saturating IPC lookup table `kIpcMapping`. -/
def kIpcMapping : List Nat :=
  [0, 1, 2, 3, 4, 5, 6, 7, 8, 8, 9, 9, 10, 10, 11, 11,
   12, 12, 12, 12, 13, 13, 13, 13, 14, 14, 14, 14, 15, 15, 15, 15,
   15, 15, 15, 15, 15, 15, 15, 15, 15, 15, 15, 15, 15, 15, 15, 15,
   15, 15, 15, 15, 15, 15, 15, 15, 15, 15, 15, 15, 15, 15, 15, 15]

/-- Map instruction and cycle deltas to a four-bit IPC bucket,
    `get_granular`, riscv branch (`del_cycles = (u32)(delta_cycles * 150)`).
    The u32 division is fallible: a zero divisor (which the near-zero
    guard does not fully rule out, since the multiply is truncated to 32
    bits) is undefined behaviour in C and modelled as `none`. -/
def get_granular (delta_inst delta_cycles : Nat) : Option Nat :=
  if delta_cycles &&& bitnot64 1 = 0 then some 0
  else
    let del_inst := delta_inst % 2 ^ 32
    let del_cycles := delta_cycles * 150 % 2 ^ 32
    if del_cycles = 0 then none
    else
      let ipc := del_inst / del_cycles
      some (kIpcMapping.getD (ipc &&& 0x3f) 0)

/-- Stamp a freshly claimed block with header metadata and process
    identity, the embedding of `initialize_trace_block`; returns the
    first real entry slot.  The MSR setup routines of the source are
    external no-ops here; their per-CPU once-only detection via
    `prior_cycles == 0` is kept. -/
def init_trace_block (s : KState) (tb : kutrace_traceblock) (env : TraceEnv)
    (init_me : Nat) (very_first_block : Bool) :
    Nat × KState × kutrace_traceblock :=
  let bic0 := env.now ||| (s.prior_block_init_counter &&& kCounterWrapMask)
  let bic := if bic0 < s.prior_block_init_counter then bic0 + kCounterWrapIncrease else bic0
  let m0 := wr s.mem init_me ((bic &&& FULL_TIMESTAMP_MASK) ||| mod64 (env.cpu <<< CPU_NUMBER_SHIFT))
  let flagsword := (if s.do_ipc then IPC_Flag <<< FLAGS_SHIFT else 0) |||
                   (if s.do_wrap then WRAP_Flag <<< FLAGS_SHIFT else 0)
  let m1 := wr m0 (init_me + 1) flagsword
  let m2 := if very_first_block then
      wr (wr (wr (wr (wr (wr m1 (init_me + 2) 0) (init_me + 3) 0) (init_me + 4) 0)
        (init_me + 5) 0) (init_me + 6) 0) (init_me + 7) 0
    else m1
  let base := if very_first_block then init_me + 8 else init_me + 2
  let m3 := wr m2 base env.pid
  let m4 := wr m3 (base + 1) 0
  let m5 := wr m4 (base + 2) (mod64 env.name0)
  let m6 := wr m5 (base + 3) (mod64 env.name1)
  let myclaim := base + 4
  let m7 := wrRange m6 (init_me + KUTRACEBLOCKSIZEU64 - 8) (init_me + KUTRACEBLOCKSIZEU64)
  let tb1 := if tb.prior_cycles = 0 then { tb with prior_cycles := 1 } else tb
  (myclaim, { s with mem := m7, prior_block_init_counter := bic }, tb1)

/-- Claim a brand-new block from the arena frontier under the lock, the
    embedding of `really_get_slow_claim`.  The frontier is decremented
    first; on exhaustion the wrap branch jumps it back to skip the very
    first block and clears the pid filter, while the non-wrap branch
    stops tracing and returns no claim (the two nested source `if`s are
    flattened into one guard for the terminal branch). -/
def really_get_slow_claim (s : KState) (tb : kutrace_traceblock) (env : TraceEnv)
    (len : Nat) : Option Nat × KState × kutrace_traceblock :=
  let very_first_block := s.traceblock_next = s.traceblock_high
  let next1 := s.traceblock_next - KUTRACEBLOCKSIZEU64
  if next1 < s.traceblock_limit ∧ ¬s.do_wrap then
    (none, { s with traceblock_next := next1, kutrace_tracing := false }, tb)
  else
    let s1 := if next1 < s.traceblock_limit then
        { s with did_wrap_around := true,
                 traceblock_next := s.traceblock_high - 2 * KUTRACEBLOCKSIZEU64,
                 kutrace_pid_filter := List.replicate 1024 0 }
      else { s with traceblock_next := next1 }
    let r := init_trace_block s1 tb env s1.traceblock_next very_first_block
    (some r.1, r.2.1,
      { r.2.2 with next := r.1 + len, limit := s1.traceblock_next + KUTRACEBLOCKSIZEU64 })

/-- Slow claim path under the lock, `get_slow_claim`: re-do the cursor
    fetch-add within the lock; when the claim still does not fit in its
    block (or the cursor is null) open a fresh block. -/
def get_slow_claim (s : KState) (tb : kutrace_traceblock) (env : TraceEnv)
    (len : Nat) : Option Nat × KState × kutrace_traceblock :=
  if is_bad_len len then (none, { s with kutrace_tracing := false }, tb)
  else
    let limit_item := tb.limit
    let myclaim := tb.next
    let tb1 := { tb with next := tb.next + len }
    if myclaim + len ≥ limit_item ∨ limit_item = 0 then
      really_get_slow_claim s tb1 env len
    else (some myclaim, s, tb1)

/-- One un-interfered iteration of the lock-free fast path: break out of
    the loop with the fetched claim and validate it against the block
    end, falling through to the slow path if it does not fit. -/
def fast_iter (s : KState) (tb : kutrace_traceblock) (env : TraceEnv)
    (len : Nat) : Option Nat × KState × kutrace_traceblock :=
  if tb.limit = 0 then get_slow_claim s tb env len
  else
    let myclaim := tb.next
    let tb1 := { tb with next := tb.next + len }
    if myclaim + len ≥ tb1.limit then get_slow_claim s tb1 env len
    else (some myclaim, s, tb1)

/-- The lock-free claim path of `get_claim`.  `intr` is the per-CPU
    cursor state observed at the re-read of `tb->limit`: `none` means no
    interrupt nested in between the cursor fetch-add and the re-read (the
    loop's first iteration breaks at once); `some t` means an interrupt
    ran and left cursor state `t`.  Exactly as in the source, an
    unchanged limit or a claim lying inside the new block's valid range
    `[limit − blocksize, limit)` is kept and then validated, anything
    else abandons the claim and re-runs the fast-path step (the retry
    iteration, which no further interrupt disturbs in this model). -/
def get_claim_core (s : KState) (tb : kutrace_traceblock) (env : TraceEnv)
    (len : Nat) (intr : Option kutrace_traceblock) :
    Option Nat × KState × kutrace_traceblock :=
  if is_bad_len len then (none, { s with kutrace_tracing := false }, tb)
  else if tb.limit = 0 then get_slow_claim s tb env len
  else
    let myclaim := tb.next
    let tbA := { tb with next := tb.next + len }
    let tbB := intr.getD tbA
    if tb.limit = tbB.limit ∨ (myclaim < tbB.limit ∧ tbB.limit - KUTRACEBLOCKSIZEU64 ≤ myclaim) then
      if myclaim + len ≥ tbB.limit then get_slow_claim s tbB env len
      else (some myclaim, s, tbB)
    else fast_iter s tbB env len

/-- Reserve space for one entry of 1..8 words, `get_claim`, in the
    sequential (no nested interrupt) execution. -/
def get_claim (s : KState) (tb : kutrace_traceblock) (env : TraceEnv)
    (len : Nat) : Option Nat × KState × kutrace_traceblock :=
  get_claim_core s tb env len none

/-- Pointer to the prior trace word for this CPU, `get_prior`. -/
def get_prior (tb : kutrace_traceblock) : Option Nat :=
  if tb.next < tb.limit then some (tb.next - 1) else none

/-- Insert one u64 trace entry for the current CPU, `insert_1`; returns
    the number of words inserted.  With IPC enabled, the per-CPU counter
    deltas are taken and the bucket byte is stored into the side-channel
    at the claim's byte offset within the arena (a zero-divisor bucket,
    undefined behaviour in C, is stored as 0). -/
def insert_1 (s : KState) (tb : kutrace_traceblock) (env : TraceEnv)
    (arg1 : Nat) : Nat × KState × kutrace_traceblock :=
  let now := env.now
  match get_claim s tb env 1 with
  | (some claim, s1, tb1) =>
    let s2 := { s1 with mem := wr s1.mem claim (mod64 arg1 ||| mod64 (now <<< TIMESTAMP_SHIFT)) }
    if s2.do_ipc then
      let delta_cycles := sub64 now tb1.prior_cycles
      let delta_inst := sub64 env.inst_ret tb1.prior_inst_retired
      let tb2 := { tb1 with prior_cycles := mod64 now, prior_inst_retired := mod64 env.inst_ret }
      let ipcv := (get_granular delta_inst delta_cycles).getD 0
      let s3 := { s2 with mem := wrByte s2.mem s2.tracebase (claim - s2.tracebase) ipcv }
      (1, s3, tb2)
    else (1, s2, tb1)
  | (none, s1, tb1) => (0, s1, tb1)

/-- Insert one u64 return entry with small retval, `insert_1_retopt`:
    merge into the immediately preceding entry when it is the matching
    call and the delta fits, else fall into a normal `insert_1`. -/
def insert_1_retopt (s : KState) (tb : kutrace_traceblock) (env : TraceEnv)
    (arg1 : Nat) : Nat × KState × kutrace_traceblock :=
  let now := env.now
  match get_prior tb with
  | some prior_entry =>
    let pw := s.mem prior_entry
    let diff := (pw ^^^ arg1) &&& EVENT_DELTA_RETVAL_MASK
    let prior_t := pw >>> TIMESTAMP_SHIFT
    let delta_t0 := sub64 now prior_t &&& UNSHIFTED_TIMESTAMP_MASK
    let delta_t := if delta_t0 = 0 then 1 else delta_t0
    if diff = EVENT_RETURN_BIT ∧ delta_t ≤ MAX_DELTA_VALUE then
      let opt_ret := (delta_t <<< DELTA_SHIFT) ||| ((arg1 &&& UNSHIFTED_RETVAL_MASK) <<< RETVAL_SHIFT)
      let s1 := { s with mem := wr s.mem prior_entry (pw ||| opt_ret) }
      if s1.do_ipc then
        let delta_cycles := sub64 now tb.prior_cycles
        let delta_inst := sub64 env.inst_ret tb.prior_inst_retired
        let tb1 := { tb with prior_cycles := mod64 now, prior_inst_retired := mod64 env.inst_ret }
        let old := rdByte s1.mem s1.tracebase (prior_entry - s1.tracebase)
        let ipcv := old ||| ((get_granular delta_inst delta_cycles).getD 0 <<< 4)
        let s2 := { s1 with mem := wrByte s1.mem s1.tracebase (prior_entry - s1.tracebase) ipcv }
        (0, s2, tb1)
      else (0, s1, tb)
    else insert_1 s tb env arg1
  | none => insert_1 s tb env arg1

/-- Insert one pair of u64 trace entries, `insert_2`. -/
def insert_2 (s : KState) (tb : kutrace_traceblock) (env : TraceEnv)
    (arg1 arg2 : Nat) : Nat × KState × kutrace_traceblock :=
  let now := env.now
  match get_claim s tb env 2 with
  | (some claim, s1, tb1) =>
    let m := wr (wr s1.mem claim (mod64 arg1 ||| mod64 (now <<< TIMESTAMP_SHIFT)))
              (claim + 1) (mod64 arg2)
    (2, { s1 with mem := m }, tb1)
  | (none, s1, tb1) => (0, s1, tb1)

/-- Record length from a trace word, `entry_len`: for event codes
    `0x010..0x1ff` the middle hex digit, all others 1. -/
def entry_len (word : Nat) : Nat :=
  let n := (word >>> EVENT_SHIFT) &&& UNSHIFTED_EVENT_MASK
  if n > MAX_EVENT_WITH_LENGTH then 1
  else if n < MIN_EVENT_WITH_LENGTH then 1
  else (n >>> EVENT_LENGTH_FIELD_SHIFT) &&& EVENT_LENGTH_FIELD_MASK

/-- Insert one trace entry of 1..8 u64 words from kernel memory,
    `insert_n_krnl`; the kernel array is passed as a list. -/
def insert_n_krnl (s : KState) (tb : kutrace_traceblock) (env : TraceEnv)
    (krnlptr : List Nat) : Nat × KState × kutrace_traceblock :=
  let w0 := krnlptr.headD 0
  let len := entry_len w0
  if is_bad_len len then (0, { s with kutrace_tracing := false }, tb)
  else
    let now := env.now
    match get_claim s tb env len with
    | (some claim, s1, tb1) =>
      let m0 := wr s1.mem claim (mod64 w0 ||| mod64 (now <<< TIMESTAMP_SHIFT))
      let m1 := writeList m0 (claim + 1) ((krnlptr.drop 1).take (len - 1))
      (len, { s1 with mem := m1 }, tb1)
    | (none, s1, tb1) => (0, s1, tb1)

/-- Insert one trace entry of 1..8 u64 words from user memory,
    `insert_n_user`; `env.ucopy` is the result of the user copy
    (`none` = fault, dropped with 0 words reported). -/
def insert_n_user (s : KState) (tb : kutrace_traceblock) (env : TraceEnv) :
    Nat × KState × kutrace_traceblock :=
  match env.ucopy with
  | none => (0, s, tb)
  | some temp =>
    let w0 := temp.headD 0
    let len := entry_len w0
    if is_bad_len len then (0, { s with kutrace_tracing := false }, tb)
    else
      let now := env.now
      match get_claim s tb env len with
      | (some claim, s1, tb1) =>
        let m1 := writeList s1.mem claim
          ((mod64 w0 ||| mod64 (now <<< TIMESTAMP_SHIFT)) :: (temp.drop 1).take (len - 1))
        (len, { s1 with mem := m1 }, tb1)
      | (none, s1, tb1) => (0, s1, tb1)

/-- Reset tracing state for a new clean trace, `do_reset`: modes are
    taken from `flags`, the pid filter is cleared, the arena pointers are
    re-derived (the lower eighth is reserved when IPC is on) and every
    per-CPU cursor is nulled. -/
def do_reset (s : KState) (cpus : List kutrace_traceblock) (flags : Nat) :
    Nat × KState × List kutrace_traceblock :=
  let ipc := flags &&& DO_IPC ≠ 0
  let wrap := flags &&& DO_WRAP ≠ 0
  let high := s.tracebase + s.tracemb * 131072
  let lim := if ipc then s.tracebase + s.tracemb * 16384 else s.tracebase
  (0,
   { s with kutrace_tracing := false, do_ipc := ipc, do_wrap := wrap,
            kutrace_pid_filter := List.replicate 1024 0,
            traceblock_high := high, traceblock_limit := lim,
            traceblock_next := high, did_wrap_around := false,
            prior_block_init_counter := 0 },
   cpus.map fun _ => ⟨0, 0, 0, 0⟩)

/-- Trace a single event from a kernel patch, `trace_1`: a no-op when
    tracing is off; a return event whose truncated retval fits in a
    signed byte goes through the call/return optimizer, everything else
    through a normal one-word insert. -/
def trace_1 (s : KState) (tb : kutrace_traceblock) (env : TraceEnv)
    (event arg : Nat) : KState × kutrace_traceblock :=
  if ¬s.kutrace_tracing then (s, tb)
  else
    let event_arg := mod64 (event <<< EVENT_SHIFT) ||| (arg &&& 0xffffffff)
    if (event &&& UNSHIFTED_EVENT_RETURN_BIT ≠ 0 ∧ event &&& UNSHIFTED_EVENT_HAS_RETURN_MASK ≠ 0) ∧
       mod64 (arg + 128) &&& bitnot64 UNSHIFTED_RETVAL_MASK = 0 then
      let r := insert_1_retopt s tb env event_arg
      (r.2.1, r.2.2)
    else
      let r := insert_1 s tb env event_arg
      (r.2.1, r.2.2)

/-- Control-surface commands; the numeric `KUTRACE_CMD_*` values live in
    a header outside this repository, so commands are represented
    symbolically, with the complemented administrative insert commands as
    the two forced variants and a constructor for any unknown command. -/
inductive Cmd where
  | OFF | ON | FLUSH | RESET | STAT | GETCOUNT | GETWORD | GETIPCWORD
  | INSERT1 | INSERTN | TEST | VERSION | INSERT1_FORCED | INSERTN_FORCED
  | UNKNOWN
  deriving DecidableEq, Repr

/-- The syscall-reachable control surface, `kutrace_control`, dispatching
    on the command; inserts act on the first CPU cursor of `cpus` in this
    single-CPU model.  A null trace buffer fails with all ones and forces
    tracing off; unknown commands return all ones. -/
def kutrace_control (s : KState) (cpus : List kutrace_traceblock)
    (env : TraceEnv) (command : Cmd) (arg : Nat) :
    Nat × KState × List kutrace_traceblock :=
  if s.tracebase = 0 then
    (bitnot64 0, { s with kutrace_tracing := false }, cpus)
  else
    match command with
    | .OFF => let r := do_trace_off s; (r.1, r.2, cpus)
    | .ON => let r := do_trace_on s; (r.1, r.2, cpus)
    | .FLUSH => do_flush s cpus
    | .RESET => do_reset s cpus arg
    | .STAT => (do_stat_val s, s, cpus)
    | .GETCOUNT =>
      let r := get_count s
      (if s.did_wrap_around then bitnot64 r.1 else r.1, r.2, cpus)
    | .GETWORD => let r := get_word s arg; (r.1, r.2, cpus)
    | .GETIPCWORD => let r := get_ipc_word s arg; (r.1, r.2, cpus)
    | .INSERT1 =>
      if ¬s.kutrace_tracing then (0, s, cpus)
      else match cpus with
        | [] => (0, s, cpus)
        | tb :: rest => let r := insert_1 s tb env arg; (r.1, r.2.1, r.2.2 :: rest)
    | .INSERTN =>
      if ¬s.kutrace_tracing then (0, s, cpus)
      else match cpus with
        | [] => (0, s, cpus)
        | tb :: rest => let r := insert_n_user s tb env; (r.1, r.2.1, r.2.2 :: rest)
    | .TEST => (if s.kutrace_tracing then 1 else 0, s, cpus)
    | .VERSION => (kModuleVersionNumber, s, cpus)
    | .INSERT1_FORCED =>
      match cpus with
      | [] => (0, s, cpus)
      | tb :: rest => let r := insert_1 s tb env arg; (r.1, r.2.1, r.2.2 :: rest)
    | .INSERTN_FORCED =>
      match cpus with
      | [] => (0, s, cpus)
      | tb :: rest => let r := insert_n_user s tb env; (r.1, r.2.1, r.2.2 :: rest)
    | .UNKNOWN => (bitnot64 0, s, cpus)

/-- Arena well-formedness: a non-null base, room for at least two
    blocks, a whole number of blocks between `limit` and `high`, and a
    frontier at or below `high` on a block boundary. -/
def arena_ok (s : KState) : Prop :=
  1 ≤ s.traceblock_limit ∧
  s.traceblock_limit + 2 * KUTRACEBLOCKSIZEU64 ≤ s.traceblock_high ∧
  (s.traceblock_high - s.traceblock_limit) % KUTRACEBLOCKSIZEU64 = 0 ∧
  s.traceblock_next ≤ s.traceblock_high ∧
  (s.traceblock_high - s.traceblock_next) % KUTRACEBLOCKSIZEU64 = 0

/-- Per-CPU cursor well-formedness: a non-null `limit` is the end of an
    arena block and the cursor never falls below that block's start. -/
def cursor_ok (s : KState) (tb : kutrace_traceblock) : Prop :=
  tb.limit ≠ 0 →
    (s.traceblock_limit + KUTRACEBLOCKSIZEU64 ≤ tb.limit ∧
     tb.limit ≤ s.traceblock_high ∧
     (s.traceblock_high - tb.limit) % KUTRACEBLOCKSIZEU64 = 0 ∧
     tb.limit - KUTRACEBLOCKSIZEU64 ≤ tb.next)

/-- The region `[c, c + len)` lies inside a single 64-KiB block of the
    arena `[limit, high)`: some block start `bs`, on the block grid laid
    down from `high`, contains the whole region. -/
def in_one_block (s : KState) (c len : Nat) : Prop :=
  ∃ bs, s.traceblock_limit ≤ bs ∧ bs + KUTRACEBLOCKSIZEU64 ≤ s.traceblock_high ∧
    (s.traceblock_high - bs) % KUTRACEBLOCKSIZEU64 = 0 ∧
    bs ≤ c ∧ c + len ≤ bs + KUTRACEBLOCKSIZEU64

/-- Arena base (a word address) for the concrete replay of the spec's
    GetCount/GetWord scenario. -/
def scnB : Nat := 262144

/-- Initial module state for the scenario: a 2 MiB arena allocated at
    `scnB`, nothing traced yet. -/
def scnInit : KState :=
  { kutrace_tracing := false, do_ipc := false, do_wrap := false,
    tracebase := scnB, tracemb := 2, traceblock_high := 0,
    traceblock_limit := 0, traceblock_next := 0, did_wrap_around := false,
    prior_block_init_counter := 0,
    kutrace_pid_filter := List.replicate 1024 0, mem := fun _ => 0 }

/-- Scenario environment for the k-th insert: time counter `1000 + k`,
    CPU 0, pid 33, a fixed nonzero process name. -/
def scnEnv (k : Nat) : TraceEnv :=
  { now := 1000 + k, cpu := 0, pid := 33, name0 := 0x4141, name1 := 0x4242,
    inst_ret := 0, ucopy := none }

/-- State after `Reset(flags = 0)` on one CPU. -/
def scnReset : KState × kutrace_traceblock :=
  let r := do_reset scnInit [⟨0, 0, 0, 0⟩] 0
  (r.2.1, (r.2.2).headD ⟨0, 0, 0, 0⟩)

/-- One scenario step: insert the single word `k + 1` at time `1000 + k`. -/
def scnStep (p : KState × kutrace_traceblock) (k : Nat) :
    KState × kutrace_traceblock :=
  let r := insert_1 p.1 p.2 (scnEnv k) (k + 1)
  (r.2.1, r.2.2)

/-- State after the ten single-word inserts. -/
def scnAfterIns : KState × kutrace_traceblock :=
  (List.range 10).foldl scnStep scnReset

/-- State after `Off` and `Flush`. -/
def scnFlushed : KState × List kutrace_traceblock :=
  let s1 := (do_trace_off scnAfterIns.1).2
  let r := do_flush s1 [scnAfterIns.2]
  (r.2.1, r.2.2)

/-- The scenario's `GetCount` result, through the control surface. -/
def scnCount : Nat :=
  (kutrace_control scnFlushed.1 scnFlushed.2 (scnEnv 0) Cmd.GETCOUNT 0).1

/-- The scenario's `GetWord i` result, through the control surface. -/
def scnWord (i : Nat) : Nat :=
  (kutrace_control scnFlushed.1 scnFlushed.2 (scnEnv 0) Cmd.GETWORD i).1
/-- C7 counterexample: replaying the spec's scenario (Reset(0), ten
    single-word inserts, Off, Flush) against the code, GetCount returns
    8192 rather than 10, GetWord 0 returns the block header word rather
    than the newest insert, GetWord 9 returns a reserved zero word rather
    than the oldest insert, and GetWord 10 returns a process-name word
    rather than 0. -/
theorem c7_scenario_counterexample :
    scnCount = 8192 ∧ scnCount ≠ 10 ∧
    scnWord 0 = 1000 ∧ scnWord 0 ≠ (10 ||| (1009 <<< 44)) ∧
    scnWord 9 = 0 ∧ scnWord 9 ≠ (1 ||| (1000 <<< 44)) ∧
    scnWord 10 = 0x4141 ∧ scnWord 10 ≠ 0 := by
  refine ⟨by decide, by decide, by decide, by decide, by decide, by decide, by decide, by decide⟩

/-- C7 amended: in that scenario GetCount returns 8192 (the whole first
    claimed block), GetWord 0 returns the block header word, the ten
    inserts sit at indices 12..21 oldest first (GetWord 12 the oldest,
    GetWord 21 the newest), and GetWord 8192 returns 0 as out of range. -/
theorem c7_scenario_amended :
    scnCount = 8192 ∧
    scnWord 0 = 1000 ∧
    scnWord 12 = (1 ||| (1000 <<< 44)) ∧
    scnWord 21 = (10 ||| (1009 <<< 44)) ∧
    scnWord 8192 = 0 := by
  refine ⟨by decide, by decide, by decide, by decide, by decide⟩

/-- Helper: every saturating-table lookup is at most 15. -/
theorem kIpcMapping_le (n : Nat) : kIpcMapping.getD n 0 ≤ 15 := by
  have h64 : ∀ m, m < 64 → kIpcMapping.getD m 0 ≤ 15 := by decide
  by_cases h : n < 64
  · exact h64 n h
  · have hlen : kIpcMapping.length = 64 := by decide
    rw [List.getD_eq_default _ _ (by omega)]
    omega

/-- C9 counterexample: the near-zero guard of `get_granular` does not
    prevent division by zero for every input pair; at
    `delta_cycles = 2 ^ 31` the 32-bit truncation of
    `delta_cycles * 150` is zero and the division is by zero
    (modelled as `none`). -/
theorem c9_granular_counterexample : get_granular 7 (2 ^ 31) = none := by
  decide

/-- C9 amended: when the cycle delta with its lowest bit masked off is
    zero the function returns bucket 0 without dividing; otherwise,
    whenever the truncated 32-bit divisor `delta_cycles * 150` is
    nonzero, the division is performed and the result is mapped through
    the fixed 64-entry saturating table to a value in `[0, 15]`. -/
theorem c9_granular_amended (delta_inst delta_cycles : Nat) :
    (delta_cycles &&& bitnot64 1 = 0 → get_granular delta_inst delta_cycles = some 0) ∧
    (delta_cycles &&& bitnot64 1 ≠ 0 → delta_cycles * 150 % 2 ^ 32 ≠ 0 →
      ∃ v, get_granular delta_inst delta_cycles = some v ∧ v ≤ 15) := by
  constructor
  · intro h
    simp [get_granular, h]
  · intro h hdiv
    have hdiv' : delta_cycles * 150 % 4294967296 ≠ 0 := by
      have h2 : (2 : Nat) ^ 32 = 4294967296 := by norm_num
      rwa [h2] at hdiv
    refine ⟨kIpcMapping.getD
      (delta_inst % 4294967296 / (delta_cycles * 150 % 4294967296) &&& 63) 0, ?_, kIpcMapping_le _⟩
    simp [get_granular, h, hdiv']

/-- C9 witness: the amended theorem at `delta_inst = 16`,
    `delta_cycles = 2`. -/
theorem c9_granular_amended_witness :
    ∃ v, get_granular 16 2 = some v ∧ v ≤ 15 :=
  (c9_granular_amended 16 2).2 (by decide) (by decide)

/-- Helper: stamping a block touches only memory, the timestamp tracker
    and the per-CPU cursor; the frontier survives unchanged. -/
theorem init_trace_block_next (s : KState) (tb : kutrace_traceblock)
    (env : TraceEnv) (im : Nat) (vf : Bool) :
    (init_trace_block s tb env im vf).2.1.traceblock_next = s.traceblock_next := rfl

/-- Helper: stamping a block leaves the wraparound marker unchanged. -/
theorem init_trace_block_wrap (s : KState) (tb : kutrace_traceblock)
    (env : TraceEnv) (im : Nat) (vf : Bool) :
    (init_trace_block s tb env im vf).2.1.did_wrap_around = s.did_wrap_around := rfl

/-- Helper: stamping a block leaves the pid filter unchanged. -/
theorem init_trace_block_pid (s : KState) (tb : kutrace_traceblock)
    (env : TraceEnv) (im : Nat) (vf : Bool) :
    (init_trace_block s tb env im vf).2.1.kutrace_pid_filter = s.kutrace_pid_filter := rfl

set_option maxRecDepth 4096

/-- C3: when the decremented frontier falls below `traceblock_limit`,
    wrap mode jumps the frontier back to `high − 2·blocksize`, marks the
    wraparound and clears the pid filter, while without wrap mode
    tracing is turned off and no claim is returned (and nothing else
    changes). -/
theorem c3_exhaustion (s : KState) (tb : kutrace_traceblock) (env : TraceEnv)
    (len : Nat)
    (hex : s.traceblock_next - KUTRACEBLOCKSIZEU64 < s.traceblock_limit) :
    (s.do_wrap = true →
      ((really_get_slow_claim s tb env len).2.1.traceblock_next
          = s.traceblock_high - 2 * KUTRACEBLOCKSIZEU64 ∧
       (really_get_slow_claim s tb env len).2.1.did_wrap_around = true ∧
       (really_get_slow_claim s tb env len).2.1.kutrace_pid_filter
          = List.replicate 1024 0)) ∧
    (s.do_wrap = false →
      really_get_slow_claim s tb env len =
        (none,
         { s with traceblock_next := s.traceblock_next - KUTRACEBLOCKSIZEU64,
                  kutrace_tracing := false }, tb)) := by
  constructor
  · intro hw
    have hif : ¬(s.traceblock_next - KUTRACEBLOCKSIZEU64 < s.traceblock_limit ∧
        ¬s.do_wrap = true) := by rw [hw]; simp
    refine ⟨?_, ?_, ?_⟩ <;>
      · simp only [really_get_slow_claim]
        rw [if_neg hif, if_pos hex]
        rfl
  · intro hw
    have hif : s.traceblock_next - KUTRACEBLOCKSIZEU64 < s.traceblock_limit ∧
        ¬s.do_wrap = true := ⟨hex, by rw [hw]; simp⟩
    simp only [really_get_slow_claim]
    rw [if_pos hif]

/-- An exhausted wrap-enabled state: the frontier already sits at the
    arena's low end. -/
def sEx3 : KState :=
  { scnInit with do_wrap := true, traceblock_high := scnB + 3 * 8192,
                 traceblock_limit := scnB, traceblock_next := scnB }

/-- C3 witness: a wrap-enabled state whose frontier is exhausted. -/
theorem c3_exhaustion_witness :
    ((sEx3.do_wrap = true →
      ((really_get_slow_claim sEx3 ⟨0, 0, 0, 0⟩ (scnEnv 0) 1).2.1.traceblock_next
          = sEx3.traceblock_high - 2 * KUTRACEBLOCKSIZEU64 ∧
       (really_get_slow_claim sEx3 ⟨0, 0, 0, 0⟩ (scnEnv 0) 1).2.1.did_wrap_around = true ∧
       (really_get_slow_claim sEx3 ⟨0, 0, 0, 0⟩ (scnEnv 0) 1).2.1.kutrace_pid_filter
          = List.replicate 1024 0)) ∧
    (sEx3.do_wrap = false →
      really_get_slow_claim sEx3 ⟨0, 0, 0, 0⟩ (scnEnv 0) 1 =
        (none,
         { sEx3 with traceblock_next := sEx3.traceblock_next - KUTRACEBLOCKSIZEU64,
                     kutrace_tracing := false }, ⟨0, 0, 0, 0⟩))) :=
  c3_exhaustion sEx3 ⟨0, 0, 0, 0⟩ (scnEnv 0) 1 (by decide)

/-- C5: through the control surface, GetCount forces tracing off and
    returns the word distance from `high` down to `next`, or down to
    `limit` when the arena wrapped or overshot, bit-complemented when a
    wraparound occurred during the session. -/
theorem c5_getcount (s : KState) (cpus : List kutrace_traceblock)
    (env : TraceEnv) (arg : Nat) (hbase : s.tracebase ≠ 0) :
    kutrace_control s cpus env Cmd.GETCOUNT arg =
      ((if s.did_wrap_around then bitnot64 (get_count_val s) else get_count_val s),
       { s with kutrace_tracing := false }, cpus) ∧
    get_count_val s =
      (if s.did_wrap_around ∨ s.traceblock_next < s.traceblock_limit then
         s.traceblock_high - s.traceblock_limit
       else s.traceblock_high - s.traceblock_next) := by
  constructor
  · simp only [kutrace_control]
    rw [if_neg hbase]
    rfl
  · rfl

/-- C5 witness: GetCount on the freshly allocated scenario state. -/
theorem c5_getcount_witness :
    kutrace_control scnInit [] (scnEnv 0) Cmd.GETCOUNT 0 =
      ((if scnInit.did_wrap_around then bitnot64 (get_count_val scnInit)
        else get_count_val scnInit),
       { scnInit with kutrace_tracing := false }, []) ∧
    get_count_val scnInit =
      (if scnInit.did_wrap_around ∨ scnInit.traceblock_next < scnInit.traceblock_limit then
         scnInit.traceblock_high - scnInit.traceblock_limit
       else scnInit.traceblock_high - scnInit.traceblock_next) :=
  c5_getcount scnInit [] (scnEnv 0) 0 (by decide)

/-- C6: a record length outside `1..8` makes every insert path force
    tracing off, drop the insert (no claim, zero words) and change
    nothing else. -/
theorem c6_bad_len (s : KState) (tb : kutrace_traceblock) (env : TraceEnv)
    (len w : Nat) (ws temp : List Nat)
    (hlen : is_bad_len len = true)
    (hw : is_bad_len (entry_len w) = true)
    (ht : is_bad_len (entry_len (temp.headD 0)) = true) :
    get_claim_core s tb env len none = (none, { s with kutrace_tracing := false }, tb) ∧
    get_slow_claim s tb env len = (none, { s with kutrace_tracing := false }, tb) ∧
    insert_n_krnl s tb env (w :: ws) = (0, { s with kutrace_tracing := false }, tb) ∧
    insert_n_user s tb { env with ucopy := some temp } =
      (0, { s with kutrace_tracing := false }, tb) := by
  refine ⟨?_, ?_, ?_, ?_⟩
  · simp [get_claim_core, hlen]
  · simp [get_slow_claim, hlen]
  · simp [insert_n_krnl, hw]
  · cases temp with
    | nil => exact absurd ht (by decide)
    | cons a l =>
      simp only [List.headD_cons] at ht
      simp [insert_n_user, ht]

/-- C6 witness: length 9 and a word with event code 0x100 (embedded
    length 0) at a concrete state. -/
theorem c6_bad_len_witness :
    get_claim_core scnInit ⟨7, 9, 0, 0⟩ (scnEnv 0) 9 none =
      (none, { scnInit with kutrace_tracing := false }, ⟨7, 9, 0, 0⟩) ∧
    get_slow_claim scnInit ⟨7, 9, 0, 0⟩ (scnEnv 0) 9 =
      (none, { scnInit with kutrace_tracing := false }, ⟨7, 9, 0, 0⟩) ∧
    insert_n_krnl scnInit ⟨7, 9, 0, 0⟩ (scnEnv 0) (((0x100 : Nat) <<< 32) :: []) =
      (0, { scnInit with kutrace_tracing := false }, ⟨7, 9, 0, 0⟩) ∧
    insert_n_user scnInit ⟨7, 9, 0, 0⟩ { scnEnv 0 with ucopy := some [(0x100 : Nat) <<< 32] } =
      (0, { scnInit with kutrace_tracing := false }, ⟨7, 9, 0, 0⟩) :=
  c6_bad_len scnInit ⟨7, 9, 0, 0⟩ (scnEnv 0) 9 ((0x100 : Nat) <<< 32)
    [] [(0x100 : Nat) <<< 32] (by decide) (by decide) (by decide)

/-- C10: for event codes in the multi-word range, `entry_len` returns
    the middle nibble, which is 0 for codes 0x100..0x10f and 15 for
    codes 0x1f0..0x1ff — outside the documented 1..8 — and the
    insert_n paths then reject such a word as a bad length, forcing
    tracing off and returning 0 without writing anything. -/
theorem c10_entry_len_nibble (w : Nat) (ws : List Nat) (s : KState)
    (tb : kutrace_traceblock) (env : TraceEnv) :
    (0x010 ≤ (w >>> 32) &&& 0xfff ∧ (w >>> 32) &&& 0xfff ≤ 0x1ff →
       entry_len w = (((w >>> 32) &&& 0xfff) >>> 4) &&& 0xf) ∧
    (0x100 ≤ (w >>> 32) &&& 0xfff ∧ (w >>> 32) &&& 0xfff ≤ 0x10f →
       entry_len w = 0) ∧
    (0x1f0 ≤ (w >>> 32) &&& 0xfff ∧ (w >>> 32) &&& 0xfff ≤ 0x1ff →
       entry_len w = 15) ∧
    (is_bad_len (entry_len w) = true →
       insert_n_krnl s tb env (w :: ws) = (0, { s with kutrace_tracing := false }, tb) ∧
       insert_n_user s tb { env with ucopy := some (w :: ws) } =
         (0, { s with kutrace_tracing := false }, tb)) := by
  have hunf : entry_len w =
      (if (w >>> 32) &&& 0xfff > 0x1ff then 1
       else if (w >>> 32) &&& 0xfff < 0x10 then 1
       else (((w >>> 32) &&& 0xfff) >>> 4) &&& 0xf) := rfl
  refine ⟨?_, ?_, ?_, ?_⟩
  · rintro ⟨h1, h2⟩
    rw [hunf, if_neg (by omega), if_neg (by omega)]
  · rintro ⟨h1, h2⟩
    rw [hunf, if_neg (by omega), if_neg (by omega)]
    have h16 : ((w >>> 32) &&& 0xfff) >>> 4 = 16 := by
      rw [Nat.shiftRight_eq_div_pow]
      omega
    rw [h16]
    decide
  · rintro ⟨h1, h2⟩
    rw [hunf, if_neg (by omega), if_neg (by omega)]
    have h31 : ((w >>> 32) &&& 0xfff) >>> 4 = 31 := by
      rw [Nat.shiftRight_eq_div_pow]
      omega
    rw [h31]
    decide
  · intro hbad
    constructor
    · simp [insert_n_krnl, hbad]
    · simp [insert_n_user, hbad]

/-- C10 witness: event code 0x100 gives length 0, event code 0x1f5
    gives length 15, and a 0x100-coded word is rejected by
    `insert_n_krnl`. -/
theorem c10_entry_len_nibble_witness :
    entry_len ((0x100 : Nat) <<< 32) = 0 ∧
    entry_len ((0x1f5 : Nat) <<< 32) = 15 ∧
    insert_n_krnl scnInit ⟨7, 9, 0, 0⟩ (scnEnv 0) (((0x100 : Nat) <<< 32) :: []) =
      (0, { scnInit with kutrace_tracing := false }, ⟨7, 9, 0, 0⟩) :=
  ⟨(c10_entry_len_nibble ((0x100 : Nat) <<< 32) [] scnInit ⟨7, 9, 0, 0⟩ (scnEnv 0)).2.1
      (by decide),
   (c10_entry_len_nibble ((0x1f5 : Nat) <<< 32) [] scnInit ⟨7, 9, 0, 0⟩ (scnEnv 0)).2.2.1
      (by decide),
   ((c10_entry_len_nibble ((0x100 : Nat) <<< 32) [] scnInit ⟨7, 9, 0, 0⟩ (scnEnv 0)).2.2.2
      (by decide)).1⟩

/-- A cursor is in flushed form: null, or with its cursor pulled up to
    the block end. -/
def flushed_tb (tb : kutrace_traceblock) : Prop :=
  tb.next = 0 ∨ tb.limit = 0 ∨ tb.next = tb.limit

/-- Helper: flushing leaves every cursor in flushed form. -/
theorem flush_one_flushed (m : Nat → Nat) (tb : kutrace_traceblock) :
    flushed_tb (flush_one m tb).2.1 := by
  unfold flush_one flushed_tb
  split_ifs with h0 h1
  · exact Or.inl h0
  · exact Or.inr (Or.inl h1)
  · exact Or.inr (Or.inr rfl)

/-- Helper: flushing a cursor already in flushed form zeroes nothing
    and changes nothing. -/
theorem flush_one_fixed (m : Nat → Nat) (tb : kutrace_traceblock)
    (h : flushed_tb tb) : flush_one m tb = (m, tb, 0) := by
  unfold flush_one
  by_cases h0 : tb.next = 0
  · rw [if_pos h0]
  · rw [if_neg h0]
    by_cases h1 : tb.limit = 0
    · rw [if_pos h1]
    · rw [if_neg h1]
      have heq : tb.next = tb.limit := by
        rcases h with h | h | h
        · exact absurd h h0
        · exact absurd h h1
        · exact h
      have hm : wrRange m tb.next tb.limit = m := by
        funext x
        unfold wrRange
        rw [if_neg (by omega)]
      have htb : ({ tb with next := tb.limit } : kutrace_traceblock) = tb := by
        cases tb
        simp_all
      rw [hm, htb, heq, Nat.sub_self]

/-- Helper: every cursor coming out of `flush_cpus` is in flushed form. -/
theorem flush_cpus_flushed (l : List kutrace_traceblock) :
    ∀ m, ∀ tb' ∈ (flush_cpus m l).2.1, flushed_tb tb' := by
  induction l with
  | nil => intro m tb' h; simp [flush_cpus] at h
  | cons tb rest ih =>
    intro m tb' h
    simp only [flush_cpus, List.mem_cons] at h
    rcases h with h | h
    · rw [h]; exact flush_one_flushed m tb
    · exact ih (flush_one m tb).1 tb' h

/-- Helper: flushing a list of cursors already in flushed form zeroes
    nothing and changes nothing. -/
theorem flush_cpus_fixed (l : List kutrace_traceblock) (m : Nat → Nat)
    (h : ∀ tb ∈ l, flushed_tb tb) : flush_cpus m l = (m, l, 0) := by
  induction l generalizing m with
  | nil => rfl
  | cons tb rest ih =>
    have h1 : flush_one m tb = (m, tb, 0) := flush_one_fixed m tb (h tb (by simp))
    have h2 : flush_cpus m rest = (m, rest, 0) := ih m (fun x hx => h x (by simp [hx]))
    simp [flush_cpus, h1, h2]

/-- C8: turning tracing off when it is already off changes no state, and
    a second flush in a row zeroes no additional words and changes
    nothing further. -/
theorem c8_off_flush_idempotent (s : KState) (cpus : List kutrace_traceblock) :
    (s.kutrace_tracing = false → do_trace_off s = (0, s)) ∧
    do_flush (do_flush s cpus).2.1 (do_flush s cpus).2.2 =
      (0, (do_flush s cpus).2.1, (do_flush s cpus).2.2) := by
  constructor
  · intro h
    unfold do_trace_off
    cases s
    simp_all
  · have hflushed : ∀ tb' ∈ (flush_cpus s.mem cpus).2.1, flushed_tb tb' :=
      flush_cpus_flushed cpus s.mem
    have hfix : flush_cpus (flush_cpus s.mem cpus).1 (flush_cpus s.mem cpus).2.1 =
        ((flush_cpus s.mem cpus).1, (flush_cpus s.mem cpus).2.1, 0) :=
      flush_cpus_fixed _ _ hflushed
    simp [do_flush, hfix]

/-- C8 witness: the theorem at a concrete stopped state with one
    partially filled cursor, the inner stopped-state hypothesis
    discharged. -/
theorem c8_off_flush_idempotent_witness :
    do_trace_off scnInit = (0, scnInit) ∧
    do_flush (do_flush scnInit [⟨5, 9, 0, 0⟩]).2.1 (do_flush scnInit [⟨5, 9, 0, 0⟩]).2.2 =
      (0, (do_flush scnInit [⟨5, 9, 0, 0⟩]).2.1, (do_flush scnInit [⟨5, 9, 0, 0⟩]).2.2) :=
  ⟨(c8_off_flush_idempotent scnInit [⟨5, 9, 0, 0⟩]).1 (by decide),
   (c8_off_flush_idempotent scnInit [⟨5, 9, 0, 0⟩]).2⟩

/-- Helper: the first real entry slot of a stamped block lies 6 to 12
    words past the block start (12 for the very first block, 6 after). -/
theorem init_trace_block_claim_bounds (s : KState) (tb : kutrace_traceblock)
    (env : TraceEnv) (im : Nat) (vf : Bool) :
    im + 6 ≤ (init_trace_block s tb env im vf).1 ∧
    (init_trace_block s tb env im vf).1 ≤ im + 12 := by
  cases vf <;> simp [init_trace_block]

/-- Helper: a length in `1..8` passes `is_bad_len`. -/
theorem is_bad_len_false (len : Nat) (h1 : 1 ≤ len) (h8 : len ≤ 8) :
    is_bad_len len = false := by
  simp only [is_bad_len, Bool.or_eq_false_iff, decide_eq_false_iff_not]
  omega

/-- Helper: a successful block-opening claim from
    `really_get_slow_claim` lies inside a single arena block. -/
theorem really_get_slow_claim_in_block (s : KState) (tb : kutrace_traceblock)
    (env : TraceEnv) (len c : Nat) (ha : arena_ok s) (h8 : len ≤ 8)
    (h : (really_get_slow_claim s tb env len).1 = some c) :
    in_one_block s c len := by
  obtain ⟨ha1, ha2, ha3, ha4, ha5⟩ := ha
  by_cases hx : s.traceblock_next - KUTRACEBLOCKSIZEU64 < s.traceblock_limit
  · by_cases hw : s.do_wrap = true
    · have hif : ¬(s.traceblock_next - KUTRACEBLOCKSIZEU64 < s.traceblock_limit ∧
          ¬s.do_wrap = true) := by rw [hw]; simp
      simp only [really_get_slow_claim] at h
      rw [if_neg hif, if_pos hx] at h
      dsimp only at h
      replace h := Option.some.inj h
      obtain ⟨hb1, hb2⟩ := init_trace_block_claim_bounds
        { s with did_wrap_around := true,
                 traceblock_next := s.traceblock_high - 2 * KUTRACEBLOCKSIZEU64,
                 kutrace_pid_filter := List.replicate 1024 0 }
        tb env (s.traceblock_high - 2 * KUTRACEBLOCKSIZEU64)
        (s.traceblock_next = s.traceblock_high)
      rw [h] at hb1 hb2
      refine ⟨s.traceblock_high - 2 * KUTRACEBLOCKSIZEU64, ?_, ?_, ?_, ?_, ?_⟩ <;>
        simp only [KUTRACEBLOCKSIZEU64] at * <;> omega
    · have hif : s.traceblock_next - KUTRACEBLOCKSIZEU64 < s.traceblock_limit ∧
          ¬s.do_wrap = true := ⟨hx, by simp [hw]⟩
      simp only [really_get_slow_claim] at h
      rw [if_pos hif] at h
      exact absurd h (by simp)
  · have hif : ¬(s.traceblock_next - KUTRACEBLOCKSIZEU64 < s.traceblock_limit ∧
        ¬s.do_wrap = true) := by simp [hx]
    simp only [really_get_slow_claim] at h
    rw [if_neg hif, if_neg hx] at h
    dsimp only at h
    replace h := Option.some.inj h
    obtain ⟨hb1, hb2⟩ := init_trace_block_claim_bounds
      { s with traceblock_next := s.traceblock_next - KUTRACEBLOCKSIZEU64 }
      tb env (s.traceblock_next - KUTRACEBLOCKSIZEU64)
      (s.traceblock_next = s.traceblock_high)
    rw [h] at hb1 hb2
    refine ⟨s.traceblock_next - KUTRACEBLOCKSIZEU64, ?_, ?_, ?_, ?_, ?_⟩ <;>
      simp only [KUTRACEBLOCKSIZEU64] at * <;> omega

/-- A fresh four-block arena state for exercising the claim paths. -/
def c1S : KState :=
  { scnInit with traceblock_high := scnB + 4 * 8192, traceblock_limit := scnB,
                 traceblock_next := scnB + 4 * 8192 }

/-- Helper: advancing a cursor preserves cursor well-formedness. -/
theorem cursor_ok_bump (s : KState) (tb : kutrace_traceblock) (len : Nat)
    (h : cursor_ok s tb) :
    cursor_ok s { tb with next := tb.next + len } := by
  intro hl
  simp only at hl
  obtain ⟨h1, h2, h3, h4⟩ := h hl
  exact ⟨h1, h2, h3, by simp only; omega⟩

/-- Helper: a successful claim from the locked slow path lies inside a
    single arena block. -/
theorem get_slow_claim_in_block (s : KState) (tb : kutrace_traceblock)
    (env : TraceEnv) (len c : Nat) (ha : arena_ok s) (hc : cursor_ok s tb)
    (h1 : 1 ≤ len) (h8 : len ≤ 8)
    (h : (get_slow_claim s tb env len).1 = some c) :
    in_one_block s c len := by
  have hbad := is_bad_len_false len h1 h8
  simp only [get_slow_claim, hbad, Bool.false_eq_true, if_false] at h
  by_cases hfit : tb.next + len ≥ tb.limit ∨ tb.limit = 0
  · rw [if_pos hfit] at h
    exact really_get_slow_claim_in_block s _ env len c ha h8 h
  · rw [if_neg hfit] at h
    dsimp only at h
    replace h := Option.some.inj h
    push_neg at hfit
    obtain ⟨hfit1, hfit2⟩ := hfit
    obtain ⟨hc1, hc2, hc3, hc4⟩ := hc hfit2
    obtain ⟨ha1, ha2, ha3, ha4, ha5⟩ := ha
    refine ⟨tb.limit - KUTRACEBLOCKSIZEU64, ?_, ?_, ?_, ?_, ?_⟩ <;>
      simp only [KUTRACEBLOCKSIZEU64] at * <;> omega

/-- Helper: a successful claim from a clean fast-path iteration lies
    inside a single arena block. -/
theorem fast_iter_in_block (s : KState) (tb : kutrace_traceblock)
    (env : TraceEnv) (len c : Nat) (ha : arena_ok s) (hc : cursor_ok s tb)
    (h1 : 1 ≤ len) (h8 : len ≤ 8)
    (h : (fast_iter s tb env len).1 = some c) :
    in_one_block s c len := by
  simp only [fast_iter] at h
  by_cases h0 : tb.limit = 0
  · rw [if_pos h0] at h
    exact get_slow_claim_in_block s tb env len c ha hc h1 h8 h
  · rw [if_neg h0] at h
    dsimp only at h
    by_cases hfit : tb.next + len ≥ tb.limit
    · rw [if_pos hfit] at h
      exact get_slow_claim_in_block s _ env len c ha (cursor_ok_bump s tb len hc) h1 h8 h
    · rw [if_neg hfit] at h
      replace h := Option.some.inj h
      obtain ⟨hc1, hc2, hc3, hc4⟩ := hc h0
      obtain ⟨ha1, ha2, ha3, ha4, ha5⟩ := ha
      refine ⟨tb.limit - KUTRACEBLOCKSIZEU64, ?_, ?_, ?_, ?_, ?_⟩ <;>
        simp only [KUTRACEBLOCKSIZEU64] at * <;> omega

/-- C1: under the arena and cursor invariants, any successful claim of a
    valid length `1..8` — fast path, with or without an interrupt nested
    between the cursor fetch-add and the limit re-read, or the locked
    slow path — returns a region lying entirely inside one 64-KiB block
    of the arena `[limit, high)`, never crossing a block boundary. -/
theorem c1_claim_in_one_block (s : KState) (tb : kutrace_traceblock)
    (env : TraceEnv) (len : Nat) (intr : Option kutrace_traceblock) (c : Nat)
    (h1 : 1 ≤ len) (h8 : len ≤ 8) (ha : arena_ok s) (hc : cursor_ok s tb)
    (hintr : ∀ t, intr = some t → cursor_ok s t)
    (h : (get_claim_core s tb env len intr).1 = some c) :
    in_one_block s c len := by
  have hbad := is_bad_len_false len h1 h8
  simp only [get_claim_core, hbad, Bool.false_eq_true, if_false] at h
  by_cases h0 : tb.limit = 0
  · rw [if_pos h0] at h
    exact get_slow_claim_in_block s tb env len c ha hc h1 h8 h
  · rw [if_neg h0] at h
    have hB : cursor_ok s (intr.getD { tb with next := tb.next + len }) := by
      cases intr with
      | none => exact cursor_ok_bump s tb len hc
      | some t => exact hintr t rfl
    set tbB := intr.getD { tb with next := tb.next + len } with htbB
    by_cases hacc : tb.limit = tbB.limit ∨
        (tb.next < tbB.limit ∧ tbB.limit - KUTRACEBLOCKSIZEU64 ≤ tb.next)
    · rw [if_pos hacc] at h
      by_cases hfit : tb.next + len ≥ tbB.limit
      · rw [if_pos hfit] at h
        exact get_slow_claim_in_block s tbB env len c ha hB h1 h8 h
      · rw [if_neg hfit] at h
        replace h := Option.some.inj h
        have hBlim0 : tbB.limit ≠ 0 := by
          rcases hacc with hacc | hacc
          · rw [← hacc]; exact h0
          · omega
        have hlow : tbB.limit - KUTRACEBLOCKSIZEU64 ≤ tb.next := by
          rcases hacc with hacc | hacc
          · have := (hc h0).2.2.2
            omega
          · exact hacc.2
        obtain ⟨hc1, hc2, hc3, hc4⟩ := hB hBlim0
        obtain ⟨ha1, ha2, ha3, ha4, ha5⟩ := ha
        refine ⟨tbB.limit - KUTRACEBLOCKSIZEU64, ?_, ?_, ?_, ?_, ?_⟩ <;>
          simp only [KUTRACEBLOCKSIZEU64] at * <;> omega
    · rw [if_neg hacc] at h
      exact fast_iter_in_block s tbB env len c ha hB h1 h8 h

/-- C1 witness: a fresh four-block arena, first claim of one word. -/
theorem c1_claim_in_one_block_witness : in_one_block c1S 286732 1 :=
  c1_claim_in_one_block c1S ⟨0, 0, 0, 0⟩ (scnEnv 0) 1 none 286732
    (by decide) (by decide)
    ⟨by decide, by decide, by decide, by decide, by decide⟩
    (fun hl => absurd rfl hl)
    (fun t ht => nomatch ht)
    rfl

/-- C2: in the fast path with a limit change observed between the
    cursor fetch-add and the re-read (`intr = some t`, `t.limit ≠`
    the first-read limit), the fetched claim is kept exactly when it
    falls inside the new block's valid range
    `[new_limit − blocksize, new_limit)`; a kept claim that fails the
    final `myclaim + len ≥ limit` test falls through to the slow path,
    and anything outside the range is abandoned and the whole fast-path
    step re-runs. -/
theorem c2_fastpath_limit_changed (s : KState) (tb t : kutrace_traceblock)
    (env : TraceEnv) (len : Nat)
    (h0 : tb.limit ≠ 0) (hch : t.limit ≠ tb.limit)
    (_hblk : KUTRACEBLOCKSIZEU64 ≤ t.limit)
    (h1 : 1 ≤ len) (h8 : len ≤ 8) :
    get_claim_core s tb env len (some t) =
      (if t.limit - KUTRACEBLOCKSIZEU64 ≤ tb.next ∧ tb.next < t.limit then
         (if tb.next + len ≥ t.limit then get_slow_claim s t env len
          else (some tb.next, s, t))
       else fast_iter s t env len) := by
  have hbad := is_bad_len_false len h1 h8
  simp only [get_claim_core, hbad, Bool.false_eq_true, if_false, Option.getD_some]
  rw [if_neg h0]
  by_cases hacc : t.limit - KUTRACEBLOCKSIZEU64 ≤ tb.next ∧ tb.next < t.limit
  · rw [if_pos (Or.inr ⟨hacc.2, hacc.1⟩), if_pos hacc]
  · have hacc' : ¬(tb.limit = t.limit ∨
        (tb.next < t.limit ∧ t.limit - KUTRACEBLOCKSIZEU64 ≤ tb.next)) := by
      rintro (he | ⟨ha', hb'⟩)
      · exact hch he.symm
      · exact hacc ⟨hb', ha'⟩
    rw [if_neg hacc', if_neg hacc]

/-- C2 witness: an old-block cursor whose claim lands inside the new
    block opened by a nested interrupt. -/
theorem c2_fastpath_limit_changed_witness :
    get_claim_core scnInit ⟨60000, 57344, 0, 0⟩ (scnEnv 0) 1
        (some ⟨60001, 65536, 0, 0⟩) =
      (if (65536 : Nat) - KUTRACEBLOCKSIZEU64 ≤ 60000 ∧ (60000 : Nat) < 65536 then
         (if (60000 : Nat) + 1 ≥ 65536 then
            get_slow_claim scnInit ⟨60001, 65536, 0, 0⟩ (scnEnv 0) 1
          else (some 60000, scnInit, ⟨60001, 65536, 0, 0⟩))
       else fast_iter scnInit ⟨60001, 65536, 0, 0⟩ (scnEnv 0) 1) :=
  c2_fastpath_limit_changed scnInit ⟨60000, 57344, 0, 0⟩ ⟨60001, 65536, 0, 0⟩
    (scnEnv 0) 1 (by decide) (by decide) (by decide) (by decide) (by decide)

/-- A running state whose previous record is a call with event code
    0x400, zero delta and retval fields, issued at tick 5. -/
def c4S : KState :=
  { scnInit with kutrace_tracing := true,
                 mem := wr (fun _ => 0) 300000 (((0x400 : Nat) <<< 32) ||| (5 <<< 44)) }

/-- Cursor for the call/return scenario: the prior record exists and
    the block has plenty of room. -/
def c4Tb : kutrace_traceblock := ⟨300001, 300100, 1, 0⟩

/-- Environment for the return event: it arrives at tick 10. -/
def c4Env : TraceEnv :=
  { now := 10, cpu := 0, pid := 33, name0 := 0x4141, name1 := 0x4242,
    inst_ret := 0, ucopy := none }

/-- C4 counterexample: a return event (code 0x600, matching call 0x400,
    delta 5, return value −5) satisfies all four conditions of the
    claim — a prior entry exists, the event codes differ exactly in the
    return bit, the delta is at most 255, and the return value is
    representable as signed `[-128, 127]` — yet it does not merge: the
    prior word is left unpatched and a fresh one-word record is claimed,
    because the merge test also compares the delta and retval bytes of
    the candidate word, which a negative return value fills with ones. -/
theorem c4_merge_counterexample :
    c4Tb.next < c4Tb.limit ∧
    (((c4S.mem (c4Tb.next - 1)) >>> EVENT_SHIFT) &&& UNSHIFTED_EVENT_MASK) ^^^ 0x600
      = UNSHIFTED_EVENT_RETURN_BIT ∧
    sub64 c4Env.now ((c4S.mem (c4Tb.next - 1)) >>> TIMESTAMP_SHIFT) &&&
      UNSHIFTED_TIMESTAMP_MASK ≤ MAX_DELTA_VALUE ∧
    mod64 (2 ^ 64 - 5 + 128) &&& bitnot64 UNSHIFTED_RETVAL_MASK = 0 ∧
    (trace_1 c4S c4Tb c4Env 0x600 (2 ^ 64 - 5)).1.mem (c4Tb.next - 1)
      = c4S.mem (c4Tb.next - 1) ∧
    (trace_1 c4S c4Tb c4Env 0x600 (2 ^ 64 - 5)).2.next = c4Tb.next + 1 := by
  refine ⟨by decide, by decide, by decide, by decide, by decide, by decide⟩

/-- C4 amended: with IPC off, a return event merges into the prior
    same-CPU record — patching delta and retval into that word and
    inserting zero new words — exactly when a prior entry exists
    (`next < limit`), the prior and candidate words differ over the
    combined event, delta and retval fields in exactly the return bit
    (for a call record with zero delta/retval this also forces the
    candidate's delta and retval bytes, hence bits 16..31 of the
    argument, to zero), and the elapsed tick delta (a computed zero is
    forced to 1) is at most 255; otherwise a normal one-word record is
    inserted.  `trace_1` routes a return-coded event into the optimizer
    exactly when `value + 128` has no bits outside the low byte. -/
theorem c4_merge_amended (s : KState) (tb : kutrace_traceblock) (env : TraceEnv)
    (event arg arg1 : Nat) (hipc : s.do_ipc = false) (htr : s.kutrace_tracing = true) :
    ((tb.next < tb.limit ∧
      (s.mem (tb.next - 1) ^^^ arg1) &&& EVENT_DELTA_RETVAL_MASK = EVENT_RETURN_BIT ∧
      (if sub64 env.now (s.mem (tb.next - 1) >>> TIMESTAMP_SHIFT) &&&
            UNSHIFTED_TIMESTAMP_MASK = 0 then 1
       else sub64 env.now (s.mem (tb.next - 1) >>> TIMESTAMP_SHIFT) &&&
            UNSHIFTED_TIMESTAMP_MASK) ≤ MAX_DELTA_VALUE →
      insert_1_retopt s tb env arg1 =
        (0,
         { s with mem := (wr s.mem (tb.next - 1)
             (s.mem (tb.next - 1) |||
              (((if sub64 env.now (s.mem (tb.next - 1) >>> TIMESTAMP_SHIFT) &&&
                    UNSHIFTED_TIMESTAMP_MASK = 0 then 1
                 else sub64 env.now (s.mem (tb.next - 1) >>> TIMESTAMP_SHIFT) &&&
                    UNSHIFTED_TIMESTAMP_MASK) <<< DELTA_SHIFT) |||
               ((arg1 &&& UNSHIFTED_RETVAL_MASK) <<< RETVAL_SHIFT)))) }, tb))) ∧
    (¬(tb.next < tb.limit ∧
      (s.mem (tb.next - 1) ^^^ arg1) &&& EVENT_DELTA_RETVAL_MASK = EVENT_RETURN_BIT ∧
      (if sub64 env.now (s.mem (tb.next - 1) >>> TIMESTAMP_SHIFT) &&&
            UNSHIFTED_TIMESTAMP_MASK = 0 then 1
       else sub64 env.now (s.mem (tb.next - 1) >>> TIMESTAMP_SHIFT) &&&
            UNSHIFTED_TIMESTAMP_MASK) ≤ MAX_DELTA_VALUE) →
      insert_1_retopt s tb env arg1 = insert_1 s tb env arg1) ∧
    ((event &&& UNSHIFTED_EVENT_RETURN_BIT ≠ 0 ∧
      event &&& UNSHIFTED_EVENT_HAS_RETURN_MASK ≠ 0) ∧
      mod64 (arg + 128) &&& bitnot64 UNSHIFTED_RETVAL_MASK = 0 →
      trace_1 s tb env event arg =
        ((insert_1_retopt s tb env
            (mod64 (event <<< EVENT_SHIFT) ||| (arg &&& 0xffffffff))).2.1,
         (insert_1_retopt s tb env
            (mod64 (event <<< EVENT_SHIFT) ||| (arg &&& 0xffffffff))).2.2)) ∧
    (¬((event &&& UNSHIFTED_EVENT_RETURN_BIT ≠ 0 ∧
        event &&& UNSHIFTED_EVENT_HAS_RETURN_MASK ≠ 0) ∧
       mod64 (arg + 128) &&& bitnot64 UNSHIFTED_RETVAL_MASK = 0) →
      trace_1 s tb env event arg =
        ((insert_1 s tb env
            (mod64 (event <<< EVENT_SHIFT) ||| (arg &&& 0xffffffff))).2.1,
         (insert_1 s tb env
            (mod64 (event <<< EVENT_SHIFT) ||| (arg &&& 0xffffffff))).2.2)) := by
  refine ⟨?_, ?_, ?_, ?_⟩
  · rintro ⟨hprior, hdiff, hdelta⟩
    have hp : get_prior tb = some (tb.next - 1) := by
      simp [get_prior, hprior]
    simp only [insert_1_retopt, hp]
    rw [if_pos ⟨hdiff, hdelta⟩]
    simp only [hipc]
    rfl
  · intro hnot
    by_cases hprior : tb.next < tb.limit
    · have hp : get_prior tb = some (tb.next - 1) := by
        simp [get_prior, hprior]
      simp only [insert_1_retopt, hp]
      rw [if_neg (fun hcond => hnot ⟨hprior, hcond.1, hcond.2⟩)]
    · have hp : get_prior tb = none := by
        simp [get_prior, hprior]
      simp only [insert_1_retopt, hp]
  · intro hcond
    simp only [trace_1, htr]
    rw [if_neg (by simp), if_pos hcond]
  · intro hcond
    simp only [trace_1, htr]
    rw [if_neg (by simp), if_neg hcond]

/-- C4 witness for the amended theorem: a mergeable return with value 3
    five ticks after its call merges into the prior word. -/
theorem c4_merge_amended_witness :
    insert_1_retopt c4S c4Tb c4Env (((0x600 : Nat) <<< 32) ||| 3) =
      (0,
       { c4S with mem := (wr c4S.mem (c4Tb.next - 1)
           (c4S.mem (c4Tb.next - 1) |||
            (((if sub64 c4Env.now (c4S.mem (c4Tb.next - 1) >>> TIMESTAMP_SHIFT) &&&
                  UNSHIFTED_TIMESTAMP_MASK = 0 then 1
               else sub64 c4Env.now (c4S.mem (c4Tb.next - 1) >>> TIMESTAMP_SHIFT) &&&
                  UNSHIFTED_TIMESTAMP_MASK) <<< DELTA_SHIFT) |||
             (((((0x600 : Nat) <<< 32) ||| 3) &&& UNSHIFTED_RETVAL_MASK) <<< RETVAL_SHIFT)))) },
       c4Tb) :=
  (c4_merge_amended c4S c4Tb c4Env 0x600 3 (((0x600 : Nat) <<< 32) ||| 3)
      (by decide) (by decide)).1 ⟨by decide, by decide, by decide⟩
